import Mathlib

/-!
Verification of the planet-pangeo mosaic/quad metadata pipeline.

This file gives a shallow embedding of the two source modules
`scripts/utils.py` and `scripts/make_mosaic_data.py` and proves the
specified properties of the embedded definitions.

Conventions of the embedding:
* Python strings are Lean `String`; Python string comparison (`<=`, `>=`)
  is code-point lexicographic, embedded as `pyStrLe` over the char list.
* Python `str.endswith` is embedded as `pyEndsWith`.
* Python `None`-able values are `Option`; Python exceptions are explicit
  error constructors (`Except` / dedicated result types).
* The external geometry engine (shapely) is embedded abstractly: an
  `AreaOfInterest` carries its bounding box and its `intersects` test on
  boxes, which is exactly the capability the source uses
  (`aoi_geom.intersects(shapely.geometry.box(*item['bbox']))`).
* HTTP is embedded as a function `fetch : String -> Response` from request
  URL to response; the response carries the HTTP-level success flag and the
  already-JSON-decoded body.
-/

namespace PlanetPangeo

/-! ## String primitives (Python semantics, executable in the kernel) -/

/-- Whether the first char list is a prefix of the second (code-point equality). -/
def listStartsWith : List Char → List Char → Bool
  | [], _ => true
  | _ :: _, [] => false
  | p :: ps, c :: cs => (p.toNat == c.toNat) && listStartsWith ps cs

/-- Python `s.endswith(suffix)`: suffix test on code points. -/
def pyEndsWith (s suffix : String) : Bool :=
  listStartsWith suffix.data.reverse s.data.reverse

/-- Whether `pat` occurs as a contiguous segment of `l`. -/
def listContainsSeg (pat : List Char) : List Char → Bool
  | [] => pat.isEmpty
  | c :: cs => listStartsWith pat (c :: cs) || listContainsSeg pat cs

/-- Python `pat in s`: substring occurrence test. -/
def pyContains (s pat : String) : Bool := listContainsSeg pat.data s.data

/-- Code-point lexicographic `<=` on char lists, as Python compares strings. -/
def lexLe : List Char → List Char → Bool
  | [], _ => true
  | _ :: _, [] => false
  | a :: as, b :: bs => a.toNat < b.toNat || (a.toNat == b.toNat && lexLe as bs)

/-- Python string `s <= t` (and `t >= s`): code-point lexicographic order. -/
def pyStrLe (s t : String) : Bool := lexLe s.data t.data

theorem lexLe_total : ∀ as bs, (lexLe as bs || lexLe bs as) = true := by
  intro as
  induction as with
  | nil => intro bs; simp [lexLe]
  | cons a as ih =>
    intro bs
    cases bs with
    | nil => simp [lexLe]
    | cons b bs =>
      simp only [lexLe, Bool.or_eq_true, decide_eq_true_eq, Bool.and_eq_true, beq_iff_eq]
      rcases Nat.lt_trichotomy a.toNat b.toNat with h | h | h
      · tauto
      · have := ih bs
        simp only [Bool.or_eq_true] at this
        tauto
      · tauto

theorem lexLe_trans :
    ∀ as bs cs, lexLe as bs = true → lexLe bs cs = true → lexLe as cs = true := by
  intro as
  induction as with
  | nil => intro bs cs _ _; simp [lexLe]
  | cons a as ih =>
    intro bs cs h1 h2
    cases bs with
    | nil => simp [lexLe] at h1
    | cons b bs =>
      cases cs with
      | nil => simp [lexLe] at h2
      | cons c cs =>
        simp only [lexLe, Bool.or_eq_true, decide_eq_true_eq, Bool.and_eq_true,
          beq_iff_eq] at *
        rcases h1 with h1 | ⟨h1e, h1r⟩ <;> rcases h2 with h2 | ⟨h2e, h2r⟩
        · exact Or.inl (Nat.lt_trans h1 h2)
        · exact Or.inl (h2e ▸ h1)
        · exact Or.inl (h1e ▸ h2)
        · exact Or.inr ⟨h1e.trans h2e, ih bs cs h1r h2r⟩

theorem pyStrLe_trans {a b c : String} (h1 : pyStrLe a b = true) (h2 : pyStrLe b c = true) :
    pyStrLe a c = true :=
  lexLe_trans a.data b.data c.data h1 h2

theorem pyStrLe_total (a b : String) : (pyStrLe a b || pyStrLe b a) = true :=
  lexLe_total a.data b.data

/-! ## `scripts/utils.py`: Time-Windowed Series Resolver

Source (`get_mosaic_time_dict_from_series_id`): after fetching and JSON
decoding the series listing (the HTTP fetch and `raise_for_status` are the
external collaborator and are not part of the pure core), the function

    sorted_mosaic_series = sorted(mosaic_series['mosaics'],
                                  key=itemgetter('first_acquired'))
    mosaic_dict = OrderedDict()
    for mosaic_item in sorted_mosaic_series:
        if (mosaic_item['first_acquired'] >= observed_start) and \
           (mosaic_item['last_acquired'] <= observed_end):
            mosaic_dict[mosaic_item['name']] = mosaic_item['first_acquired']
    return mosaic_dict
-/

/-- One entry of the remote mosaic series listing. -/
structure MosaicSeriesEntry where
  name : String
  first_acquired : String
  last_acquired : String
deriving DecidableEq

/-- Python `OrderedDict` assignment `d[k] = v`: an existing key keeps its
position and has its value overwritten; a new key is appended at the end. -/
def odInsert (d : List (String × String)) (k v : String) : List (String × String) :=
  if d.any (fun p => p.1 == k) then
    d.map (fun p => if p.1 == k then (k, v) else p)
  else
    d ++ [(k, v)]

/-- The source's window predicate:
`first_acquired >= observed_start and last_acquired <= observed_end`. -/
def windowPred (observed_start observed_end : String) (m : MosaicSeriesEntry) : Bool :=
  pyStrLe observed_start m.first_acquired && pyStrLe m.last_acquired observed_end

/-- Comparator used by the source's `sorted(..., key=itemgetter('first_acquired'))`. -/
def entryLe (a b : MosaicSeriesEntry) : Bool :=
  pyStrLe a.first_acquired b.first_acquired

/-- Insert `a` into a sorted list, after every element that is `le a`
(so insertion keeps the relative order of equal keys). -/
def insertSorted {α : Type} (le : α → α → Bool) (a : α) : List α → List α
  | [] => [a]
  | b :: bs => if le b a then b :: insertSorted le a bs else a :: b :: bs

/-- Python `sorted`: a stable sort.  Embedded as stable insertion sort
(each element is inserted after all earlier elements with an equal key,
which is exactly the stability guarantee of Python's sort). -/
def pySorted {α : Type} (le : α → α → Bool) (l : List α) : List α :=
  l.foldl (fun acc a => insertSorted le a acc) []

/-- Pure core of `get_mosaic_time_dict_from_series_id`: sort by
`first_acquired`, then insert every entry passing the window predicate into
an ordered dict mapping name to `first_acquired`. -/
def get_mosaic_time_dict (entries : List MosaicSeriesEntry)
    (observed_start observed_end : String) : List (String × String) :=
  let sorted_mosaic_series := pySorted entryLe entries
  sorted_mosaic_series.foldl
    (fun d m =>
      if windowPred observed_start observed_end m then
        odInsert d m.name m.first_acquired
      else d)
    []

/-! ## `scripts/utils.py`: Geometry Adapter

`match_aoi_input` decides path-versus-inline by `aoi.endswith('json')`; the
path branch opens the file and parses it with `geojson.load`, the inline
branch parses the string itself with `geojson.loads`.  `geojson_to_shape`
dispatches on the parsed value's class: Feature, FeatureCollection,
GeometryCollection, and a catch-all `else` that hands the value to
`shapely.geometry.asShape` (which raises `ValueError` on anything that is
not a bare geometry).
-/

/-- A bare GeoJSON geometry as seen by shapely's `asShape`: its type tag and
its coordinate payload, passed through verbatim (no CRS or wrapping logic). -/
structure Geom where
  typeName : String
  coords : List ℚ
deriving DecidableEq

/-- A value produced by the geojson parser, classified the way
`geojson_to_shape`'s isinstance chain classifies it.  `other` is a parseable
JSON value that is none of the supported shapes. -/
inductive GeoJson where
  | feature (geometry : GeoJson)
  | featureCollection (features : List GeoJson)
  | geometryCollection (geometries : List GeoJson)
  | geom (g : Geom)
  | other (typeName : String)

/-- A shapely object as returned by `geojson_to_shape`: either a single
geometry adapter or a `GeometryCollection` of member geometries. -/
inductive Shape where
  | prim (g : Geom)
  | collection (gs : List Geom)
deriving DecidableEq

/-- Error kinds of the Geometry Adapter (the spec's `InputError`): the
Python exceptions `FileNotFoundError` (from `open`), `ValueError` from
geojson parsing, and `ValueError` from `asShape` on an unsupported shape. -/
inductive InputError where
  | fileNotFound (path : String)
  | parseError
  | unsupportedShape (typeName : String)
deriving DecidableEq

/-- Shapely `asShape`: accepts a bare geometry dict and raises `ValueError`
on any other value (Feature dicts, collections already intercepted by the
isinstance chain, arbitrary JSON objects). -/
def asShape : GeoJson → Except InputError Geom
  | GeoJson.geom g => Except.ok g
  | GeoJson.other t => Except.error (InputError.unsupportedShape t)
  | GeoJson.feature _ => Except.error (InputError.unsupportedShape "Feature")
  | GeoJson.featureCollection _ => Except.error (InputError.unsupportedShape "FeatureCollection")
  | GeoJson.geometryCollection _ => Except.error (InputError.unsupportedShape "GeometryCollection")

/-- `geojson_to_shape`: dispatch on the parsed value's class.
Feature uses its geometry member; FeatureCollection and GeometryCollection
build a `GeometryCollection` of the members' shapes; everything else goes to
`asShape` directly. -/
def geojson_to_shape : GeoJson → Except InputError Shape
  | GeoJson.feature geometry => (asShape geometry).map Shape.prim
  | GeoJson.featureCollection features =>
      (features.mapM asShape).map Shape.collection
  | GeoJson.geometryCollection geometries =>
      (geometries.mapM asShape).map Shape.collection
  | gj => (asShape gj).map Shape.prim

/-- `match_aoi_input`: `if aoi.endswith('json')` open the file and parse it,
else parse the string inline.  The filesystem is `files : String -> Option
String` (contents by path; `none` means `open` raises `FileNotFoundError`)
and the geojson parser is `parse : String -> Option GeoJson` (`none` means
the parse raises `ValueError`). -/
def match_aoi_input (files : String → Option String) (parse : String → Option GeoJson)
    (aoi : String) : Except InputError GeoJson :=
  if pyEndsWith aoi "json" then
    match files aoi with
    | none => Except.error (InputError.fileNotFound aoi)
    | some contents =>
        match parse contents with
        | none => Except.error InputError.parseError
        | some gj => Except.ok gj
  else
    match parse aoi with
    | none => Except.error InputError.parseError
    | some gj => Except.ok gj

/-- The Geometry Adapter pipeline as used by `main`:
`aoi_geojson = match_aoi_input(args.aoi); aoi_geom = geojson_to_shape(aoi_geojson)`. -/
def normalizeAoi (files : String → Option String) (parse : String → Option GeoJson)
    (aoi : String) : Except InputError Shape :=
  match match_aoi_input files parse aoi with
  | Except.error e => Except.error e
  | Except.ok gj => geojson_to_shape gj

/-! ## `scripts/make_mosaic_data.py`: data model of the Paginated Quad Scanner -/

/-- A bounding box `(minx, miny, maxx, maxy)`; coordinates are exact
rationals standing in for the source's floats (no claim here depends on
floating-point rounding). -/
structure BBox where
  x0 : ℚ
  y0 : ℚ
  x1 : ℚ
  y1 : ℚ
deriving DecidableEq

/-- One tile payload of the quad-listing page: the fields the source reads
(`item['_links'][...]`, `item['bbox']`, `item['id']`, `item['percent_covered']`). -/
structure QuadItem where
  self_link : String
  download_link : String
  items_link : String
  thumbnail : String
  bbox : BBox
  id : String
  percent_covered : ℚ
deriving DecidableEq

/-- The record built in `generate_aoi_quads` for an intersecting tile
(the dict literal `q_data`). -/
structure QuadRecord where
  self_link : String
  download_link : String
  items_link : String
  thumbnail : String
  bbox : BBox
  id : String
  percent_covered : ℚ
  mosaic_id : String
deriving DecidableEq

/-- The `q_data` dict literal: every link, the bbox, the id, the coverage
percentage of the tile, and the owning mosaic id. -/
def mkQuadRecord (mosaic_id : String) (item : QuadItem) : QuadRecord :=
  { self_link := item.self_link
    download_link := item.download_link
    items_link := item.items_link
    thumbnail := item.thumbnail
    bbox := item.bbox
    id := item.id
    percent_covered := item.percent_covered
    mosaic_id := mosaic_id }

/-- The canonical AOI geometry, embedded through the two capabilities the
source uses: `aoi_geom.bounds` and
`aoi_geom.intersects(shapely.geometry.box(*bbox))`.  The Boolean
`intersects` is the geometry engine's non-empty-intersection test (touching
counts), applied to the box built from a tile bbox. -/
structure AreaOfInterest where
  bounds : BBox
  intersects : BBox → Bool

/-- The JSON-decoded body of one quad-listing response:
`items` is the `['items']` member (`none` models a body without that key,
whose subscript raises `KeyError`), `next` is `['_links']['_next']`
(`none` models `.get` returning nothing). -/
structure PageBody where
  items : Option (List QuadItem)
  next : Option String

/-- One HTTP response: its HTTP-level success flag (which the scanner never
consults) and its decoded body. -/
structure Response where
  ok : Bool
  body : PageBody

/-- The inner `for item in mosaic_quad_data['items']` loop: for each item a
fresh list `quads = []` is built, filled with exactly one record when the
tile box intersects the AOI, and yielded only when non-empty
(`if quads: yield quads`). -/
def processItems (aoi : AreaOfInterest) (mosaic_id : String) :
    List QuadItem → List (List QuadRecord)
  | [] => []
  | item :: rest =>
      let quads : List QuadRecord :=
        if aoi.intersects item.bbox then [mkQuadRecord mosaic_id item] else []
      if quads.isEmpty then processItems aoi mosaic_id rest
      else quads :: processItems aoi mosaic_id rest

/-- Outcome of running the scan: the generator either runs out of fuel
(modelling non-termination), crashes with Python `KeyError` when a body has
no `items` member, or finishes.  Every outcome records the URLs fetched in
order and the lists yielded so far (yields made before a crash are not
retracted). -/
inductive ScanResult where
  | timeout (visited : List String) (yields : List (List QuadRecord))
  | keyError (visited : List String) (yields : List (List QuadRecord))
  | done (visited : List String) (yields : List (List QuadRecord))
deriving DecidableEq

/-- URLs fetched, in order. -/
def ScanResult.visited : ScanResult → List String
  | ScanResult.timeout vs _ => vs
  | ScanResult.keyError vs _ => vs
  | ScanResult.done vs _ => vs

/-- Lists yielded by the generator, in order. -/
def ScanResult.yields : ScanResult → List (List QuadRecord)
  | ScanResult.timeout _ ys => ys
  | ScanResult.keyError _ ys => ys
  | ScanResult.done _ ys => ys

/-- Whether the scan reached the terminal state (loop exited via `break`). -/
def ScanResult.isDone : ScanResult → Bool
  | ScanResult.done _ _ => true
  | _ => false

/-- Python truthiness of the `_next` value: `if not quads_url: break` fires
on an absent link and on an empty string. -/
def nextIsFalsy : Option String → Bool
  | none => true
  | some s => s.isEmpty

/-- The `while True` pagination loop of `generate_aoi_quads`: fetch the
current URL, subscript the body's `items` (KeyError when absent), process
the items, then read `['_links']['_next']` via `.get` and either stop
(falsy) or continue at the next URL.  No HTTP status check appears anywhere
in the source loop: `result = requests.get(url); data = result.json()`.
Fuel bounds the number of page fetches. -/
def scanLoop (fetch : String → Response) (aoi : AreaOfInterest) (mosaic_id : String) :
    Nat → String → ScanResult
  | 0, _ => ScanResult.timeout [] []
  | Nat.succ fuel, url =>
    let r := fetch url
    match r.body.items with
    | none => ScanResult.keyError [url] []
    | some items =>
      let ys := processItems aoi mosaic_id items
      match r.body.next with
      | none => ScanResult.done [url] ys
      | some nextUrl =>
        if nextUrl.isEmpty then ScanResult.done [url] ys
        else
          match scanLoop fetch aoi mosaic_id fuel nextUrl with
          | ScanResult.timeout vs ys2 => ScanResult.timeout (url :: vs) (ys ++ ys2)
          | ScanResult.keyError vs ys2 => ScanResult.keyError (url :: vs) (ys ++ ys2)
          | ScanResult.done vs ys2 => ScanResult.done (url :: vs) (ys ++ ys2)

/-- Python `str(x)` on the possibly-absent credential
(`os.environ.get('PL_API_KEY')` is `None` when unset, and `format`
interpolates it as the text `None`). -/
def pyFormatOpt : Option String → String
  | none => "None"
  | some s => s

/-- Python `str` of a coordinate; the exact decimal rendering of the
source's floats is cosmetic and abstracted by the rational's rendering. -/
def coordStr (q : ℚ) : String := toString q

/-- The `','.join(map(str, aoi_bounds))` bbox query fragment. -/
def bboxStr (b : BBox) : String :=
  coordStr b.x0 ++ "," ++ coordStr b.y0 ++ "," ++ coordStr b.x1 ++ "," ++ coordStr b.y1

/-- The initial quad-listing URL built in `generate_aoi_quads`:
`'https://api.planet.com/basemaps/v1/mosaics/{}/quads?api_key={}&bbox=' .
format(mosaic_id, PL_API_KEY)` followed by the joined bounds. -/
def initialQuadsUrl (mosaic_id : String) (api_key : Option String) (bounds : BBox) : String :=
  "https://api.planet.com/basemaps/v1/mosaics/" ++ mosaic_id ++ "/quads?api_key="
    ++ pyFormatOpt api_key ++ "&bbox=" ++ bboxStr bounds

/-- `generate_aoi_quads(aoi_geom, mosaic_id)`: build the initial URL from
the AOI bounds and the process-wide `PL_API_KEY`, then run the pagination
loop from it. -/
def generate_aoi_quads (fetch : String → Response) (aoi : AreaOfInterest)
    (mosaic_id : String) (api_key : Option String) (fuel : Nat) : ScanResult :=
  scanLoop fetch aoi mosaic_id fuel (initialQuadsUrl mosaic_id api_key aoi.bounds)

/-- The flattening of one mosaic's generator output:
`flatten([_ for _ in mosaic_quad_data])` with
`flatten = lambda l: [item for sublist in l for item in sublist]`. -/
def scanRecords (fetch : String → Response) (aoi : AreaOfInterest)
    (mosaic_id : String) (api_key : Option String) (fuel : Nat) : List QuadRecord :=
  (generate_aoi_quads fetch aoi mosaic_id api_key fuel).yields.flatten

/-- pandas `pd.concat`: raises `ValueError` when handed an empty sequence of
frames (documented pandas behavior, "No objects to concatenate"); otherwise
concatenates the rows. -/
def pd_concat (dfs : List (List QuadRecord)) : Except String (List QuadRecord) :=
  match dfs with
  | [] => Except.error "ValueError: No objects to concatenate"
  | _ => Except.ok dfs.flatten

/-- `make_quad_info_df`: one scan per mosaic row, one frame per scan, then
`pd.concat` over all frames. -/
def make_quad_info_df (fetch : String → Response) (aoi : AreaOfInterest)
    (api_key : Option String) (fuel : Nat) (mosaic_ids : List String) :
    Except String (List QuadRecord) :=
  pd_concat (mosaic_ids.map (fun mid => scanRecords fetch aoi mid api_key fuel))

/-! ## The page-chain relation

`Chain fetch u chain` says: starting the pagination at URL `u`, the
next-link references reach exactly the pages `chain` (in order), every such
page's body has an `items` member, and the last page's next reference is
falsy (`None` or empty) while every inner one is a non-empty URL. -/

/-- Finite next-link chain of pages starting at a URL. -/
inductive Chain (fetch : String → Response) : String → List String → Prop
  | last (u : String) :
      ((fetch u).body.items).isSome = true →
      nextIsFalsy ((fetch u).body.next) = true →
      Chain fetch u [u]
  | step (u v : String) (rest : List String) :
      ((fetch u).body.items).isSome = true →
      (fetch u).body.next = some v →
      v.isEmpty = false →
      Chain fetch v rest →
      Chain fetch u (u :: rest)

/-- The items of the page at a URL (empty when the body has no items member;
such a page crashes the scan before yielding, so it contributes nothing). -/
def pageItems (fetch : String → Response) (url : String) : List QuadItem :=
  ((fetch url).body.items).getD []

/-- The yields the loop accumulates over a chain of pages. -/
def chainYields (fetch : String → Response) (aoi : AreaOfInterest) (mosaic_id : String)
    (chain : List String) : List (List QuadRecord) :=
  (chain.map (fun u => processItems aoi mosaic_id (pageItems fetch u))).flatten

/-! ## Helper lemmas about the page loop -/

theorem processItems_flatten (aoi : AreaOfInterest) (mosaic_id : String)
    (items : List QuadItem) :
    (processItems aoi mosaic_id items).flatten =
      (items.filter (fun it => aoi.intersects it.bbox)).map (mkQuadRecord mosaic_id) := by
  induction items with
  | nil => rfl
  | cons item rest ih =>
    by_cases h : aoi.intersects item.bbox = true
    · simp [processItems, h, List.filter_cons, ih]
    · simp only [Bool.not_eq_true] at h
      simp [processItems, h, List.filter_cons, ih]

theorem processItems_singletons (aoi : AreaOfInterest) (mosaic_id : String)
    (items : List QuadItem) :
    ((processItems aoi mosaic_id items).all (fun l => l.length == 1)) = true := by
  induction items with
  | nil => rfl
  | cons item rest ih =>
    by_cases h : aoi.intersects item.bbox = true
    · simp only [processItems, h, if_pos]
      simpa [List.all_cons] using ih
    · simp only [Bool.not_eq_true] at h
      simpa [processItems, h] using ih

theorem mem_processItems_flatten (aoi : AreaOfInterest) (mosaic_id : String)
    (items : List QuadItem) (r : QuadRecord) :
    r ∈ (processItems aoi mosaic_id items).flatten ↔
      ∃ item, item ∈ items ∧ aoi.intersects item.bbox = true ∧
        r = mkQuadRecord mosaic_id item := by
  rw [processItems_flatten]
  simp only [List.mem_map, List.mem_filter]
  constructor
  · rintro ⟨item, ⟨hmem, hint⟩, hr⟩
    exact ⟨item, hmem, hint, hr.symm⟩
  · rintro ⟨item, hmem, hint, hr⟩
    exact ⟨item, ⟨hmem, hint⟩, hr.symm⟩

theorem scanLoop_chain (fetch : String → Response) (aoi : AreaOfInterest)
    (mosaic_id : String) :
    ∀ {u : String} {chain : List String}, Chain fetch u chain →
      ∀ {fuel : Nat}, chain.length ≤ fuel →
        scanLoop fetch aoi mosaic_id fuel u =
          ScanResult.done chain (chainYields fetch aoi mosaic_id chain) := by
  intro u chain hc
  induction hc with
  | last u hitems hnext =>
    intro fuel hf
    match fuel, hf with
    | Nat.succ fuel, _ =>
      obtain ⟨its, hits⟩ := Option.isSome_iff_exists.mp hitems
      simp only [scanLoop, hits]
      have hpage : pageItems fetch u = its := by simp [pageItems, hits]
      cases hn : (fetch u).body.next with
      | none => simp [chainYields, hpage]
      | some s =>
        have hs : s.isEmpty = true := by simpa [nextIsFalsy, hn] using hnext
        simp [hs, chainYields, hpage]
  | step u v rest hitems hnext hne _ ih =>
    intro fuel hf
    match fuel, hf with
    | Nat.succ fuel, hf =>
      obtain ⟨its, hits⟩ := Option.isSome_iff_exists.mp hitems
      have hrest : rest.length ≤ fuel := Nat.le_of_succ_le_succ (by simpa using hf)
      have hif : ¬(v.isEmpty = true) := by simp [hne]
      simp only [scanLoop, hits, hnext, if_neg hif]
      rw [ih hrest]
      have hpage : pageItems fetch u = its := by simp [pageItems, hits]
      simp [chainYields, hpage]

theorem chain_mem_suffix (fetch : String → Response) :
    ∀ {v : String} {l : List String}, Chain fetch v l →
      ∀ w ∈ l, ∃ s, s.IsSuffix l ∧ Chain fetch w s := by
  intro v l hc
  induction hc with
  | last u hitems hnext =>
    intro w hw
    rcases List.mem_singleton.mp hw with rfl
    exact ⟨[w], List.suffix_refl _, Chain.last w hitems hnext⟩
  | step u v rest hitems hnext hne hrest ih =>
    intro w hw
    rcases List.mem_cons.mp hw with rfl | hw
    · exact ⟨w :: rest, List.suffix_refl _, Chain.step w v rest hitems hnext hne hrest⟩
    · obtain ⟨s, hs, hcs⟩ := ih w hw
      exact ⟨s, hs.trans (List.suffix_cons u rest), hcs⟩

theorem chain_unique (fetch : String → Response) :
    ∀ {u : String} {l1 l2 : List String},
      Chain fetch u l1 → Chain fetch u l2 → l1 = l2 := by
  intro u l1 l2 h1
  induction h1 generalizing l2 with
  | last u hitems hnext =>
    intro h2
    cases h2 with
    | last _ _ _ => rfl
    | step _ v rest _ hnext2 hne2 _ =>
      rw [hnext2] at hnext
      simp [nextIsFalsy, hne2] at hnext
  | step u v rest hitems hnext hne hrest ih =>
    intro h2
    cases h2 with
    | last _ _ hnext2 =>
      rw [hnext] at hnext2
      simp [nextIsFalsy, hne] at hnext2
    | step _ v2 rest2 _ hnext2 hne2 hrest2 =>
      rw [hnext] at hnext2
      cases Option.some.inj hnext2
      rw [ih hrest2]

theorem chain_nodup (fetch : String → Response) :
    ∀ {u : String} {l : List String}, Chain fetch u l → l.Nodup := by
  intro u l hc
  induction hc with
  | last u _ _ => simp
  | step u v rest hitems hnext hne hrest ih =>
    refine List.nodup_cons.mpr ⟨?_, ih⟩
    intro hu
    obtain ⟨s, hs, hcs⟩ := chain_mem_suffix fetch hrest u hu
    have heq : s = u :: rest :=
      chain_unique fetch hcs (Chain.step u v rest hitems hnext hne hrest)
    have hlen : s.length ≤ rest.length := hs.length_le
    rw [heq] at hlen
    simp at hlen

theorem mem_chainYields_flatten (fetch : String → Response) (aoi : AreaOfInterest)
    (mosaic_id : String) (chain : List String) (r : QuadRecord) :
    r ∈ (chainYields fetch aoi mosaic_id chain).flatten ↔
      ∃ url, url ∈ chain ∧ ∃ item, item ∈ pageItems fetch url ∧
        aoi.intersects item.bbox = true ∧ r = mkQuadRecord mosaic_id item := by
  induction chain with
  | nil => simp [chainYields]
  | cons u rest ih =>
    have hsplit : chainYields fetch aoi mosaic_id (u :: rest) =
        processItems aoi mosaic_id (pageItems fetch u) ++
          chainYields fetch aoi mosaic_id rest := by
      simp [chainYields]
    rw [hsplit, List.flatten_append, List.mem_append, mem_processItems_flatten, ih]
    constructor
    · rintro (⟨item, hi, hint, hr⟩ | ⟨url, hu, hrest⟩)
      · exact ⟨u, List.mem_cons_self u rest, item, hi, hint, hr⟩
      · exact ⟨url, List.mem_cons_of_mem u hu, hrest⟩
    · rintro ⟨url, hu, item, hi, hint, hr⟩
      rcases List.mem_cons.mp hu with rfl | hu
      · exact Or.inl ⟨item, hi, hint, hr⟩
      · exact Or.inr ⟨url, hu, item, hi, hint, hr⟩

/-! ## Shared concrete fixtures used by the witness theorems -/

/-- A concrete tile payload. -/
def itemW : QuadItem :=
  { self_link := "s", download_link := "d", items_link := "i", thumbnail := "t"
    bbox := { x0 := 0, y0 := 0, x1 := 1, y1 := 1 }, id := "q1", percent_covered := 50 }

/-- A concrete AOI whose geometry engine reports intersection with every box. -/
def aoiW : AreaOfInterest :=
  { bounds := { x0 := 0, y0 := 0, x1 := 10, y1 := 10 }, intersects := fun _ => true }

/-- A concrete two-page server: page `u1` has one tile and a next link to
`u2`; page `u2` is empty and terminal. -/
def fetchW : String → Response := fun u =>
  if u == "u1" then { ok := true, body := { items := some [itemW], next := some "u2" } }
  else { ok := true, body := { items := some [], next := none } }

/-- The two-page chain of `fetchW`. -/
theorem fetchW_chain : Chain fetchW "u1" ["u1", "u2"] :=
  Chain.step "u1" "u2" ["u2"] rfl rfl rfl (Chain.last "u2" rfl rfl)

/-! ## Claim theorems -/

/-- C2: for every finite chain of pages linked by next-page references, a
single scan fetches every page in the chain exactly once, in chain order
(`visited = chain`, and the chain has no duplicates), and terminates exactly
at the page whose response carries no next-page reference (the result is the
`done` state after the chain's last page). -/
theorem scanner_pagination_visits_chain_once
    (fetch : String → Response) (aoi : AreaOfInterest) (mosaic_id : String)
    (u : String) (chain : List String) (fuel : Nat)
    (hc : Chain fetch u chain) (hf : chain.length ≤ fuel) :
    scanLoop fetch aoi mosaic_id fuel u =
      ScanResult.done chain (chainYields fetch aoi mosaic_id chain) ∧ chain.Nodup :=
  ⟨scanLoop_chain fetch aoi mosaic_id hc hf, chain_nodup fetch hc⟩

theorem scanner_pagination_visits_chain_once_witness :
    Chain fetchW "u1" ["u1", "u2"] ∧ (["u1", "u2"] : List String).length ≤ 2 ∧
    scanLoop fetchW aoiW "m" 2 "u1" =
      ScanResult.done ["u1", "u2"] (chainYields fetchW aoiW "m" ["u1", "u2"]) ∧
    (["u1", "u2"] : List String).Nodup := by
  have h := scanner_pagination_visits_chain_once fetchW aoiW "m" "u1" ["u1", "u2"] 2
    fetchW_chain (by decide)
  exact ⟨fetchW_chain, by decide, h.1, h.2⟩

/-- C1: over every fetched page of the chain, a QuadRecord appears in the
scan's output iff it is built from a tile payload whose bbox geometry
intersects the AOI geometry (the engine's non-empty-intersection test,
touching included); a wholly disjoint tile never appears, and an emitted
record is exactly `mkQuadRecord`, carrying the tile's links, bbox, id,
coverage percentage and the owning mosaic id. -/
theorem quadrecord_emitted_iff_bbox_intersects_aoi
    (fetch : String → Response) (aoi : AreaOfInterest) (mosaic_id : String)
    (u : String) (chain : List String) (fuel : Nat)
    (hc : Chain fetch u chain) (hf : chain.length ≤ fuel) :
    (∀ r : QuadRecord,
      r ∈ (scanLoop fetch aoi mosaic_id fuel u).yields.flatten ↔
        ∃ url, url ∈ chain ∧ ∃ item, item ∈ pageItems fetch url ∧
          aoi.intersects item.bbox = true ∧ r = mkQuadRecord mosaic_id item) ∧
    (∀ item : QuadItem,
      (mkQuadRecord mosaic_id item).self_link = item.self_link ∧
      (mkQuadRecord mosaic_id item).download_link = item.download_link ∧
      (mkQuadRecord mosaic_id item).items_link = item.items_link ∧
      (mkQuadRecord mosaic_id item).thumbnail = item.thumbnail ∧
      (mkQuadRecord mosaic_id item).bbox = item.bbox ∧
      (mkQuadRecord mosaic_id item).id = item.id ∧
      (mkQuadRecord mosaic_id item).percent_covered = item.percent_covered ∧
      (mkQuadRecord mosaic_id item).mosaic_id = mosaic_id) := by
  constructor
  · intro r
    rw [scanLoop_chain fetch aoi mosaic_id hc hf]
    exact mem_chainYields_flatten fetch aoi mosaic_id chain r
  · intro item
    exact ⟨rfl, rfl, rfl, rfl, rfl, rfl, rfl, rfl⟩

theorem quadrecord_emitted_iff_bbox_intersects_aoi_witness :
    Chain fetchW "u1" ["u1", "u2"] ∧ (["u1", "u2"] : List String).length ≤ 2 ∧
    mkQuadRecord "m" itemW ∈ (scanLoop fetchW aoiW "m" 2 "u1").yields.flatten := by
  have h := quadrecord_emitted_iff_bbox_intersects_aoi fetchW aoiW "m" "u1" ["u1", "u2"] 2
    fetchW_chain (by decide)
  refine ⟨fetchW_chain, by decide, ?_⟩
  exact (h.1 (mkQuadRecord "m" itemW)).mpr ⟨"u1", by decide, itemW, by decide, rfl, rfl⟩

/-- C9: every value yielded by the scanning generator is a list of length
exactly one (never an empty list), and flattening the yields gives exactly
the intersecting tile records of the visited pages, page by page in listing
order. -/
theorem generator_yields_singletons
    (fetch : String → Response) (aoi : AreaOfInterest) (mosaic_id : String)
    (fuel : Nat) (u : String) :
    ((scanLoop fetch aoi mosaic_id fuel u).yields.all (fun l => l.length == 1)) = true ∧
    (scanLoop fetch aoi mosaic_id fuel u).yields.flatten =
      ((scanLoop fetch aoi mosaic_id fuel u).visited.map
        (fun url => ((pageItems fetch url).filter (fun it => aoi.intersects it.bbox)).map
          (mkQuadRecord mosaic_id))).flatten := by
  induction fuel generalizing u with
  | zero => simp [scanLoop, ScanResult.yields, ScanResult.visited]
  | succ fuel ih =>
    cases hits : (fetch u).body.items with
    | none =>
      simp [scanLoop, hits, ScanResult.yields, ScanResult.visited, pageItems]
    | some its =>
      have hpage : pageItems fetch u = its := by simp [pageItems, hits]
      cases hnext : (fetch u).body.next with
      | none =>
        simp [scanLoop, hits, hnext, ScanResult.yields, ScanResult.visited,
          processItems_singletons, hpage, processItems_flatten]
      | some nextUrl =>
        by_cases hempty : nextUrl.isEmpty = true
        · simp [scanLoop, hits, hnext, hempty, ScanResult.yields, ScanResult.visited,
            processItems_singletons, hpage, processItems_flatten]
        · obtain ⟨ih1, ih2⟩ := ih nextUrl
          have hif : ¬(nextUrl.isEmpty = true) := hempty
          cases hrec : scanLoop fetch aoi mosaic_id fuel nextUrl with
          | timeout vs ys2 =>
            rw [hrec] at ih1 ih2
            simp only [ScanResult.yields, ScanResult.visited] at ih1 ih2
            simp [scanLoop, hits, hnext, if_neg hif, hrec, ScanResult.yields,
              ScanResult.visited, List.all_append, processItems_singletons, ih1,
              processItems_flatten, hpage, ih2]
          | keyError vs ys2 =>
            rw [hrec] at ih1 ih2
            simp only [ScanResult.yields, ScanResult.visited] at ih1 ih2
            simp [scanLoop, hits, hnext, if_neg hif, hrec, ScanResult.yields,
              ScanResult.visited, List.all_append, processItems_singletons, ih1,
              processItems_flatten, hpage, ih2]
          | done vs ys2 =>
            rw [hrec] at ih1 ih2
            simp only [ScanResult.yields, ScanResult.visited] at ih1 ih2
            simp [scanLoop, hits, hnext, if_neg hif, hrec, ScanResult.yields,
              ScanResult.visited, List.all_append, processItems_singletons, ih1,
              processItems_flatten, hpage, ih2]

/-! ## Helper lemmas about the resolver -/

theorem odInsert_append (d : List (String × String)) (k v : String)
    (h : ∀ p ∈ d, p.1 ≠ k) : odInsert d k v = d ++ [(k, v)] := by
  unfold odInsert
  rw [if_neg]
  intro hany
  obtain ⟨p, hp, hpk⟩ := List.any_eq_true.mp hany
  exact h p hp (by simpa using hpk)

theorem entryLe_trans (a b c : MosaicSeriesEntry)
    (h1 : entryLe a b = true) (h2 : entryLe b c = true) : entryLe a c = true :=
  pyStrLe_trans h1 h2

theorem entryLe_total (a b : MosaicSeriesEntry) : (entryLe a b || entryLe b a) = true :=
  pyStrLe_total a.first_acquired b.first_acquired

theorem insertSorted_perm {α : Type} (le : α → α → Bool) (a : α) :
    ∀ l : List α, (insertSorted le a l).Perm (a :: l) := by
  intro l
  induction l with
  | nil => exact List.Perm.refl _
  | cons b bs ih =>
    unfold insertSorted
    by_cases h : le b a = true
    · rw [if_pos h]
      exact (ih.cons b).trans (List.Perm.swap a b bs)
    · rw [if_neg h]

theorem insertSorted_pairwise {α : Type} (le : α → α → Bool)
    (htrans : ∀ a b c, le a b = true → le b c = true → le a c = true)
    (htotal : ∀ a b, (le a b || le b a) = true) (a : α) :
    ∀ l : List α, l.Pairwise (fun x y => le x y = true) →
      (insertSorted le a l).Pairwise (fun x y => le x y = true) := by
  intro l
  induction l with
  | nil => intro _; simp [insertSorted]
  | cons b bs ih =>
    intro hp
    obtain ⟨hb, hbs⟩ := List.pairwise_cons.mp hp
    unfold insertSorted
    by_cases h : le b a = true
    · rw [if_pos h]
      refine List.pairwise_cons.mpr ⟨?_, ih hbs⟩
      intro x hx
      rcases List.mem_cons.mp ((insertSorted_perm le a bs).subset hx) with rfl | hx2
      · exact h
      · exact hb x hx2
    · rw [if_neg h]
      have hab : le a b = true := by
        rcases Bool.or_eq_true_iff.mp (htotal a b) with h1 | h1
        · exact h1
        · exact absurd h1 h
      refine List.pairwise_cons.mpr ⟨?_, hp⟩
      intro x hx
      rcases List.mem_cons.mp hx with rfl | hx2
      · exact hab
      · exact htrans a b x hab (hb x hx2)

theorem foldl_insertSorted_perm {α : Type} (le : α → α → Bool) :
    ∀ (l acc : List α),
      (l.foldl (fun acc a => insertSorted le a acc) acc).Perm (acc ++ l) := by
  intro l
  induction l with
  | nil => intro acc; simp
  | cons a l ih =>
    intro acc
    simp only [List.foldl_cons]
    have h2 : (insertSorted le a acc ++ l).Perm (acc ++ a :: l) :=
      (((insertSorted_perm le a acc).append_right l).trans (List.perm_middle.symm))
    exact (ih (insertSorted le a acc)).trans h2

theorem pySorted_perm {α : Type} (le : α → α → Bool) (l : List α) :
    (pySorted le l).Perm l := by
  simpa using foldl_insertSorted_perm le l []

theorem pySorted_pairwise {α : Type} (le : α → α → Bool)
    (htrans : ∀ a b c, le a b = true → le b c = true → le a c = true)
    (htotal : ∀ a b, (le a b || le b a) = true) (l : List α) :
    (pySorted le l).Pairwise (fun x y => le x y = true) := by
  have key : ∀ (l acc : List α), acc.Pairwise (fun x y => le x y = true) →
      (l.foldl (fun acc a => insertSorted le a acc) acc).Pairwise
        (fun x y => le x y = true) := by
    intro l
    induction l with
    | nil => intro acc h; simpa using h
    | cons a l ih =>
      intro acc h
      simp only [List.foldl_cons]
      exact ih (insertSorted le a acc) (insertSorted_pairwise le htrans htotal a acc h)
  exact key l [] (by simp)

theorem foldl_odInsert (os oe : String) :
    ∀ (l : List MosaicSeriesEntry) (d : List (String × String)),
      ((l.map (fun m => m.name)).Nodup) →
      (∀ m ∈ l, windowPred os oe m = true → ∀ p ∈ d, p.1 ≠ m.name) →
      l.foldl
        (fun d m => if windowPred os oe m then odInsert d m.name m.first_acquired else d)
        d =
        d ++ (l.filter (windowPred os oe)).map (fun m => (m.name, m.first_acquired)) := by
  intro l
  induction l with
  | nil => intro d _ _; simp
  | cons m l ih =>
    intro d hnodup hd
    have hnodup_tail : ((l.map (fun m => m.name)).Nodup) :=
      (List.nodup_cons.mp (by simpa using hnodup)).2
    have hname_not : m.name ∉ l.map (fun m => m.name) :=
      (List.nodup_cons.mp (by simpa using hnodup)).1
    simp only [List.foldl_cons]
    by_cases hp : windowPred os oe m = true
    · rw [if_pos hp]
      rw [odInsert_append d m.name m.first_acquired
        (fun p hpd => hd m (List.mem_cons_self m l) hp p hpd)]
      rw [ih (d ++ [(m.name, m.first_acquired)]) hnodup_tail ?_]
      · simp [List.filter_cons, hp]
      · intro m2 hm2 hp2 p hpmem
        rcases List.mem_append.mp hpmem with hpd | hpm
        · exact hd m2 (List.mem_cons_of_mem m hm2) hp2 p hpd
        · rcases List.mem_singleton.mp hpm with rfl
          intro hcontra
          have hc2 : m.name = m2.name := hcontra
          exact hname_not (by rw [hc2]; exact List.mem_map_of_mem (fun m => m.name) hm2)
    · rw [if_neg hp]
      rw [ih d hnodup_tail (fun m2 hm2 => hd m2 (List.mem_cons_of_mem m hm2))]
      simp [List.filter_cons, hp]

theorem get_mosaic_time_dict_eq (entries : List MosaicSeriesEntry) (os oe : String)
    (hn : ((entries.map (fun m => m.name)).Nodup)) :
    get_mosaic_time_dict entries os oe =
      ((pySorted entryLe entries).filter (windowPred os oe)).map
        (fun m => (m.name, m.first_acquired)) := by
  have hperm : (pySorted entryLe entries).Perm entries :=
    pySorted_perm entryLe entries
  have hns : (((pySorted entryLe entries).map (fun m => m.name)).Nodup) :=
    ((hperm.map (fun m => m.name)).nodup_iff).mpr hn
  unfold get_mosaic_time_dict
  rw [foldl_odInsert os oe (pySorted entryLe entries) [] hns (by intro _ _ _ p hp; simp at hp)]
  simp

/-! ## Claim C3: resolver window filtering -/

/-- C3 counterexample: with two series entries sharing the name `A`, both
inside the window, the `OrderedDict` assignment overwrites the first entry's
value, so the qualifying entry `(A, first=1, last=2)` does not appear in the
result even though it satisfies the window predicate: the claimed iff fails. -/
theorem resolver_window_iff_cex :
    (⟨"A", "1", "2"⟩ : MosaicSeriesEntry) ∈
        ([⟨"A", "1", "2"⟩, ⟨"A", "5", "6"⟩] : List MosaicSeriesEntry) ∧
    windowPred "0" "9" ⟨"A", "1", "2"⟩ = true ∧
    ("A", "1") ∉
      get_mosaic_time_dict [⟨"A", "1", "2"⟩, ⟨"A", "5", "6"⟩] "0" "9" := by
  refine ⟨by decide, by decide, ?_⟩
  decide

/-- C3 as amended: when the series entries carry pairwise-distinct names,
an entry appears in the resolved window (as the pair of its name and its
`first_acquired`) iff `first_acquired >= windowStart` and
`last_acquired <= windowEnd` (both inclusive, full containment), every
result pair comes from such a qualifying entry, and the result is sorted by
`first_acquired` ascending. -/
theorem resolver_window_containment_sorted (entries : List MosaicSeriesEntry)
    (os oe : String) (hn : ((entries.map (fun m => m.name)).Nodup)) :
    (∀ m ∈ entries,
      ((m.name, m.first_acquired) ∈ get_mosaic_time_dict entries os oe ↔
        windowPred os oe m = true)) ∧
    (∀ p ∈ get_mosaic_time_dict entries os oe,
      ∃ m ∈ entries, windowPred os oe m = true ∧ p = (m.name, m.first_acquired)) ∧
    (get_mosaic_time_dict entries os oe).Pairwise (fun p q => pyStrLe p.2 q.2 = true) := by
  have hperm : (pySorted entryLe entries).Perm entries :=
    pySorted_perm entryLe entries
  have heq := get_mosaic_time_dict_eq entries os oe hn
  refine ⟨?_, ?_, ?_⟩
  · intro m hm
    rw [heq]
    constructor
    · intro hmem
      obtain ⟨m2, hm2, hpair⟩ := List.mem_map.mp hmem
      obtain ⟨hm2s, hp2⟩ := List.mem_filter.mp hm2
      have hm2e : m2 ∈ entries := hperm.mem_iff.mp hm2s
      have hname : m2.name = m.name := congrArg Prod.fst hpair
      have : m2 = m := List.inj_on_of_nodup_map hn hm2e hm hname
      exact this ▸ hp2
    · intro hp
      have hms : m ∈ pySorted entryLe entries := hperm.mem_iff.mpr hm
      exact List.mem_map_of_mem _ (List.mem_filter.mpr ⟨hms, hp⟩)
  · intro p hp
    rw [heq] at hp
    obtain ⟨m2, hm2, hpair⟩ := List.mem_map.mp hp
    obtain ⟨hm2s, hp2⟩ := List.mem_filter.mp hm2
    exact ⟨m2, hperm.mem_iff.mp hm2s, hp2, hpair.symm⟩
  · rw [heq]
    have hsorted : (pySorted entryLe entries).Pairwise (fun a b => entryLe a b = true) :=
      pySorted_pairwise entryLe (fun a b c => entryLe_trans a b c)
        (fun a b => entryLe_total a b) entries
    have hfilter : ((pySorted entryLe entries).filter (windowPred os oe)).Pairwise
        (fun a b => entryLe a b = true) :=
      List.Pairwise.sublist (List.filter_sublist (pySorted entryLe entries)) hsorted
    exact List.Pairwise.map _ (fun a b h => h) hfilter

theorem resolver_window_containment_sorted_witness :
    ((([⟨"m1", "2018-01-01", "2018-01-31"⟩, ⟨"m2", "2019-03-01", "2019-03-31"⟩] :
        List MosaicSeriesEntry).map (fun m => m.name)).Nodup) ∧
    ("m1", "2018-01-01") ∈
      get_mosaic_time_dict
        [⟨"m1", "2018-01-01", "2018-01-31"⟩, ⟨"m2", "2019-03-01", "2019-03-31"⟩]
        "2018-01-01" "2019-02-01" := by
  have h := resolver_window_containment_sorted
    [⟨"m1", "2018-01-01", "2018-01-31"⟩, ⟨"m2", "2019-03-01", "2019-03-31"⟩]
    "2018-01-01" "2019-02-01" (by decide)
  exact ⟨by decide, (h.1 ⟨"m1", "2018-01-01", "2018-01-31"⟩ (by decide)).mpr (by decide)⟩

/-! ## Substring lemmas for the URL construction -/

theorem listStartsWith_refl_append (pat ys : List Char) :
    listStartsWith pat (pat ++ ys) = true := by
  induction pat with
  | nil => rfl
  | cons p ps ih => simp [listStartsWith, ih]

theorem listContainsSeg_of_startsWith (pat l : List Char)
    (h : listStartsWith pat l = true) : listContainsSeg pat l = true := by
  cases l with
  | nil =>
    cases pat with
    | nil => rfl
    | cons p ps => simp [listStartsWith] at h
  | cons c cs => simp [listContainsSeg, h]

theorem listContainsSeg_cons (pat : List Char) (x : Char) (l : List Char)
    (h : listContainsSeg pat l = true) : listContainsSeg pat (x :: l) = true := by
  simp [listContainsSeg, h]

theorem listContainsSeg_append (pat xs l : List Char)
    (h : listContainsSeg pat l = true) : listContainsSeg pat (xs ++ l) = true := by
  induction xs with
  | nil => simpa using h
  | cons x xs ih => simpa [List.cons_append] using listContainsSeg_cons pat x (xs ++ l) ih

theorem pyContains_middle (x pat y : String) : pyContains (x ++ pat ++ y) pat = true := by
  unfold pyContains
  have hd : (x ++ pat ++ y).data = x.data ++ (pat.data ++ y.data) := by
    simp [String.data_append]
  rw [hd]
  exact listContainsSeg_append pat.data x.data (pat.data ++ y.data)
    (listContainsSeg_of_startsWith pat.data (pat.data ++ y.data)
      (listStartsWith_refl_append pat.data y.data))

theorem scanLoop_visited_head (fetch : String → Response) (aoi : AreaOfInterest)
    (mosaic_id : String) : ∀ (fuel : Nat) (url : String), 1 ≤ fuel →
    (scanLoop fetch aoi mosaic_id fuel url).visited.head? = some url := by
  intro fuel url hf
  match fuel, hf with
  | Nat.succ f, _ =>
    cases hits : (fetch url).body.items with
    | none => simp [scanLoop, hits, ScanResult.visited]
    | some its =>
      cases hnext : (fetch url).body.next with
      | none => simp [scanLoop, hits, hnext, ScanResult.visited]
      | some n =>
        by_cases he : n.isEmpty = true
        · simp [scanLoop, hits, hnext, he, ScanResult.visited]
        · cases hrec : scanLoop fetch aoi mosaic_id f n with
          | timeout vs ys => simp [scanLoop, hits, hnext, if_neg he, hrec, ScanResult.visited]
          | keyError vs ys => simp [scanLoop, hits, hnext, if_neg he, hrec, ScanResult.visited]
          | done vs ys => simp [scanLoop, hits, hnext, if_neg he, hrec, ScanResult.visited]

/-! ## Claim C4: no HTTP status check in the scanner -/

/-- A server whose every response is HTTP-level non-success but carries a
well-formed page body. -/
def fetchBadBody : String → Response := fun _ =>
  { ok := false, body := { items := some [itemW], next := none } }

/-- A server whose every response is HTTP-level non-success with a body that
has no `items` member (the usual shape of an error body). -/
def fetchNoItems : String → Response := fun _ =>
  { ok := false, body := { items := none, next := none } }

/-- C4: the source performs no HTTP status check at any page fetch
(`result = requests.get(url); data = result.json()` with no
`raise_for_status`).  A non-success response with a parseable page body is
processed as a normal page and the scan completes, emitting records; a
non-success response whose body lacks `items` crashes with Python
`KeyError`, not with any `UpstreamError`-style failure.  In both cases the
claimed behavior (fail with `UpstreamError` rather than continue) does not
occur. -/
theorem scanner_ignores_http_status :
    (fetchBadBody "u0").ok = false ∧
    scanLoop fetchBadBody aoiW "m" 2 "u0" =
      ScanResult.done ["u0"] [[mkQuadRecord "m" itemW]] ∧
    (fetchNoItems "u0").ok = false ∧
    scanLoop fetchNoItems aoiW "m" 2 "u0" = ScanResult.keyError ["u0"] [] := by
  exact ⟨rfl, rfl, rfl, rfl⟩

/-! ## Claim C5: empty resolver result crashes the assembler -/

/-- C5: the resolver itself returns an empty dict (not an error) when no
entry satisfies the window predicate, but the downstream assembler does not
survive the empty case: `pd.concat` on the empty list of per-mosaic frames
raises `ValueError`. -/
theorem resolver_empty_ok_assembler_concat_raises :
    get_mosaic_time_dict [⟨"m1", "2018-01-01", "2018-01-31"⟩] "2019-01-01" "2019-12-31"
      = [] ∧
    make_quad_info_df fetchW aoiW none 1 [] =
      Except.error "ValueError: No objects to concatenate" := by
  exact ⟨by decide, rfl⟩

/-! ## Claim C6: Geometry Adapter error behavior -/

/-- C6: the Geometry Adapter fails with an `InputError` when the path does
not exist (path branch, `open` raises), when the text does not parse as
structured geographic data (either branch, parser raises), or when the
parsed shape matches none of the supported cases (the `asShape` catch-all
raises on it); a successfully normalized input is never the unsupported
shape. -/
theorem geometry_adapter_rejects_bad_input
    (files : String → Option String) (parse : String → Option GeoJson) (aoi : String) :
    (pyEndsWith aoi "json" = true → files aoi = none →
      normalizeAoi files parse aoi = Except.error (InputError.fileNotFound aoi)) ∧
    (pyEndsWith aoi "json" = true → ∀ contents, files aoi = some contents →
      parse contents = none →
      normalizeAoi files parse aoi = Except.error InputError.parseError) ∧
    (pyEndsWith aoi "json" = false → parse aoi = none →
      normalizeAoi files parse aoi = Except.error InputError.parseError) ∧
    (∀ t, geojson_to_shape (GeoJson.other t) =
      Except.error (InputError.unsupportedShape t)) ∧
    (∀ gj s, geojson_to_shape gj = Except.ok s → ∀ t, gj ≠ GeoJson.other t) := by
  refine ⟨?_, ?_, ?_, ?_, ?_⟩
  · intro hend hfile
    simp [normalizeAoi, match_aoi_input, hend, hfile]
  · intro hend contents hfile hparse
    simp [normalizeAoi, match_aoi_input, hend, hfile, hparse]
  · intro hend hparse
    simp [normalizeAoi, match_aoi_input, hend, hparse]
  · intro t
    rfl
  · intro gj s h t heq
    subst heq
    simp [geojson_to_shape, asShape, Except.map] at h

theorem geometry_adapter_rejects_bad_input_witness :
    pyEndsWith "missing.json" "json" = true ∧
    normalizeAoi (fun _ => none) (fun _ => none) "missing.json" =
      Except.error (InputError.fileNotFound "missing.json") ∧
    normalizeAoi (fun _ => some "bad text") (fun _ => none) "missing.json" =
      Except.error InputError.parseError ∧
    pyEndsWith "not a path" "json" = false ∧
    normalizeAoi (fun _ => none) (fun _ => none) "not a path" =
      Except.error InputError.parseError ∧
    geojson_to_shape (GeoJson.other "Banana") =
      Except.error (InputError.unsupportedShape "Banana") := by
  refine ⟨by decide, ?_, ?_, by decide, ?_, ?_⟩
  · exact (geometry_adapter_rejects_bad_input (fun _ => none) (fun _ => none)
      "missing.json").1 (by decide) rfl
  · exact (geometry_adapter_rejects_bad_input (fun _ => some "bad text") (fun _ => none)
      "missing.json").2.1 (by decide) "bad text" rfl rfl
  · exact (geometry_adapter_rejects_bad_input (fun _ => none) (fun _ => none)
      "not a path").2.2.1 (by decide) rfl
  · exact (geometry_adapter_rejects_bad_input (fun _ => none) (fun _ => none)
      "x").2.2.2.1 "Banana"

/-! ## Claim C7: credential handling -/

/-- A two-page server used to exhibit the follow-up request: the next link
carries no credential and is fetched verbatim. -/
def fetchPages : String → Response := fun u =>
  if u == "page2" then { ok := true, body := { items := some [], next := none } }
  else { ok := true, body := { items := some [], next := some "page2" } }

/-- C7 counterexample: with the credential absent
(`os.environ.get` returned `None`), the scan does not fail fast — it issues
the quad-listing request with the literal text `None` interpolated as the
`api_key` value and completes normally; the follow-up page request carries
no credential at all. -/
theorem scanner_missing_credential_cex :
    generate_aoi_quads fetchPages aoiW "m" none 2 =
      ScanResult.done [initialQuadsUrl "m" none aoiW.bounds, "page2"] [] ∧
    pyContains (initialQuadsUrl "m" none aoiW.bounds) "api_key=None" = true ∧
    pyContains "page2" "api_key" = false := by
  refine ⟨rfl, by decide, by decide⟩

theorem initialQuadsUrl_decomp (mosaic_id : String) (api_key : Option String) (b : BBox) :
    initialQuadsUrl mosaic_id api_key b =
      ("https://api.planet.com/basemaps/v1/mosaics/" ++ mosaic_id ++ "/quads?")
        ++ ("api_key=" ++ pyFormatOpt api_key) ++ ("&bbox=" ++ bboxStr b) := by
  have key : ∀ X : String,
      ("/quads?api_key=" : String) ++ X = "/quads?" ++ ("api_key=" ++ X) := by
    intro X
    rw [← String.append_assoc]
    rfl
  unfold initialQuadsUrl
  simp only [String.append_assoc]
  rw [key]

/-- C7 as amended: the program never validates the credential.  When absent,
the initial quad-listing URL contains the literal `api_key=None` and the
request is still issued (the first fetched URL of the scan is exactly that
URL); when present, the credential appears in the initial URL.  No
configuration error exists anywhere on this path. -/
theorem scanner_credential_interpolated_not_validated
    (fetch : String → Response) (aoi : AreaOfInterest) (mosaic_id k : String)
    (fuel : Nat) (hf : 1 ≤ fuel) :
    pyContains (initialQuadsUrl mosaic_id none aoi.bounds) "api_key=None" = true ∧
    pyContains (initialQuadsUrl mosaic_id (some k) aoi.bounds) ("api_key=" ++ k) = true ∧
    (generate_aoi_quads fetch aoi mosaic_id none fuel).visited.head? =
      some (initialQuadsUrl mosaic_id none aoi.bounds) := by
  refine ⟨?_, ?_, ?_⟩
  · have h2 : ("api_key=" ++ pyFormatOpt none : String) = "api_key=None" := rfl
    rw [initialQuadsUrl_decomp, h2]
    exact pyContains_middle _ _ _
  · have h2 : ("api_key=" ++ pyFormatOpt (some k) : String) = "api_key=" ++ k := rfl
    rw [initialQuadsUrl_decomp, h2]
    exact pyContains_middle _ _ _
  · exact scanLoop_visited_head fetch aoi mosaic_id fuel _ hf

theorem scanner_credential_interpolated_not_validated_witness :
    (1 : Nat) ≤ 2 ∧
    pyContains (initialQuadsUrl "m" none aoiW.bounds) "api_key=None" = true ∧
    pyContains (initialQuadsUrl "m" (some "secret") aoiW.bounds)
      ("api_key=" ++ "secret") = true ∧
    (generate_aoi_quads fetchPages aoiW "m" none 2).visited.head? =
      some (initialQuadsUrl "m" none aoiW.bounds) := by
  have h := scanner_credential_interpolated_not_validated fetchPages aoiW "m" "secret" 2
    (by decide)
  exact ⟨by decide, h.1, h.2.1, h.2.2⟩

/-! ## Claim C8: normalization of bare geometry -/

/-- C8: on an already-canonical input — a bare geometry such as a Polygon or
LineString — normalization returns exactly that geometry (the `else` branch
hands it to `asShape`, which passes the coordinates through verbatim). -/
theorem geojson_to_shape_bare_geometry_id (g : Geom) :
    geojson_to_shape (GeoJson.geom g) = Except.ok (Shape.prim g) := rfl

/-! ## Claim C10: the path-versus-inline decision -/

/-- C10 counterexample: the decisive suffix `json` has four characters, not
three; at the concrete input `a.json` the adapter takes the path branch
(it consults the filesystem and raises `FileNotFoundError`) even though the
claimed condition — ending with a three-character suffix `json` — is
satisfiable by no string. -/
theorem aoi_path_decision_cex :
    match_aoi_input (fun _ => none) (fun _ => none) "a.json" =
      Except.error (InputError.fileNotFound "a.json") ∧
    ("json" : String).length = 4 ∧ ¬(("json" : String).length = 3) := by
  exact ⟨rfl, rfl, by decide⟩

/-- C10 as amended: the path-versus-inline decision depends only on whether
the input ends with the four characters `json`: when it does not, the result
is independent of the filesystem and is the inline parse of the string
itself; when it does, the string is opened as a filesystem path (missing
file raises, otherwise the file contents are parsed). -/
theorem aoi_path_decision_endswith_json
    (files files2 : String → Option String) (parse : String → Option GeoJson)
    (aoi : String) :
    (pyEndsWith aoi "json" = false →
      match_aoi_input files parse aoi = match_aoi_input files2 parse aoi) ∧
    (pyEndsWith aoi "json" = false →
      match_aoi_input files parse aoi =
        (match parse aoi with
         | none => Except.error InputError.parseError
         | some gj => Except.ok gj)) ∧
    (pyEndsWith aoi "json" = true → files aoi = none →
      match_aoi_input files parse aoi = Except.error (InputError.fileNotFound aoi)) ∧
    (pyEndsWith aoi "json" = true → ∀ contents, files aoi = some contents →
      match_aoi_input files parse aoi =
        (match parse contents with
         | none => Except.error InputError.parseError
         | some gj => Except.ok gj)) ∧
    ("json" : String).length = 4 := by
  refine ⟨?_, ?_, ?_, ?_, rfl⟩
  · intro hend
    simp [match_aoi_input, hend]
  · intro hend
    simp [match_aoi_input, hend]
  · intro hend hfile
    simp [match_aoi_input, hend, hfile]
  · intro hend contents hfile
    simp [match_aoi_input, hend, hfile]

theorem aoi_path_decision_endswith_json_witness :
    pyEndsWith "foobarjson" "json" = true ∧
    match_aoi_input (fun _ => none) (fun _ => none) "foobarjson" =
      Except.error (InputError.fileNotFound "foobarjson") ∧
    pyEndsWith "not a path" "json" = false ∧
    match_aoi_input (fun _ => some "ignored") (fun _ => none) "not a path" =
      match_aoi_input (fun _ => none) (fun _ => none) "not a path" := by
  refine ⟨by decide, ?_, by decide, ?_⟩
  · exact (aoi_path_decision_endswith_json (fun _ => none) (fun _ => none)
      (fun _ => none) "foobarjson").2.2.1 (by decide) rfl
  · exact (aoi_path_decision_endswith_json (fun _ => some "ignored") (fun _ => none)
      (fun _ => none) "not a path").1 (by decide)

end PlanetPangeo
